import Mathlib

/-!
Shallow embedding of the two-step challenge/verification service in `src/app.py`.

Numbers (datasets, statistics, submitted values) are modelled as rationals `ℚ`,
an exact idealisation of Python numerics; `math.isclose` is embedded with its
documented semantics `|a - b| ≤ max (rel_tol * max |a| |b|, abs_tol)` and its
documented defaults `rel_tol = 1e-9`, `abs_tol = 0.0`.

The in-memory dict `challenges_data` is modelled as a function
`String → Option Challenge`; the in-place mutations of a looked-up record are
modelled by writing the updated record back at its key.  A Python runtime error
(e.g. `float(None)` / a missing dict key in the comparison block, which sits
outside the `try`) is modelled by `step2_submit_statistics` returning `none`.
-/

namespace APITest

/-- The dict returned by `calculate_statistics` (src/app.py lines 31-67).
For empty input the Python dict stores `None` under every statistic key
(with the key `mode` rather than `modes`); both the `mode = None` (empty
case) and the `modes = [...]` (non-empty case) entries are modelled by the
single field `modes : Option (List ℚ)`. -/
structure StatisticsSnapshot where
  count : Nat
  minimum : Option ℚ
  maximum : Option ℚ
  mean : Option ℚ
  median : Option ℚ
  modes : Option (List ℚ)
deriving DecidableEq, Repr

/-- `statistics.median`: sort, then middle element for odd length, average of
the two middle elements for even length (src/app.py line 46). -/
def median (numbers_y : List ℚ) : ℚ :=
  let s := numbers_y.insertionSort (· ≤ ·)
  let n := numbers_y.length
  if n % 2 = 1 then s.getD (n / 2) 0
  else (s.getD (n / 2 - 1) 0 + s.getD (n / 2) 0) / 2

/-- `max(counts.values())` where `counts = Counter(numbers_y)`
(src/app.py line 51): the largest frequency of any distinct value. -/
def max_freq (numbers_y : List ℚ) : Nat :=
  (numbers_y.dedup.map fun v => numbers_y.count v).foldl max 0

/-- `sorted([num for num, freq in counts.items() if freq == max_freq])`
(src/app.py line 52): every distinct value whose frequency equals the
maximum frequency, sorted ascending. -/
def modesOf (numbers_y : List ℚ) : List ℚ :=
  ((numbers_y.dedup.filter fun v => numbers_y.count v == max_freq numbers_y).insertionSort (· ≤ ·))

/-- `calculate_statistics` (src/app.py lines 31-67).  For non-empty input:
`count = len`, `minimum = min`, `maximum = max`, `mean` the arithmetic mean,
`median` as above, `modes` all tied most-frequent values sorted ascending. -/
def calculate_statistics : List ℚ → StatisticsSnapshot
  | [] =>
    { count := 0, minimum := none, maximum := none, mean := none,
      median := none, modes := none }
  | x :: xs =>
    { count := (x :: xs).length
      minimum := some (xs.foldl min x)
      maximum := some (xs.foldl max x)
      mean := some ((x :: xs).sum / (x :: xs).length)
      median := some (median (x :: xs))
      modes := some (modesOf (x :: xs)) }

/-- `math.isclose(a, b, rel_tol, abs_tol)`:
`abs(a-b) <= max(rel_tol * max(abs(a), abs(b)), abs_tol)`. -/
def isclose (a b rel_tol abs_tol : ℚ) : Bool :=
  decide (|a - b| ≤ max (rel_tol * max |a| |b|) abs_tol)

/-- The tolerance `1e-9`: both the implementation default `rel_tol` of
`math.isclose` and the explicit `rel_tol`/`abs_tol` passed for mean and
median (src/app.py lines 161 and 165). -/
def tol9 : ℚ := 1 / 1000000000

/-- `math.isclose(a, b)` with no tolerance override: the implementation
defaults `rel_tol = 1e-9`, `abs_tol = 0.0` (used for `minimum`/`maximum`,
src/app.py lines 153 and 157). -/
def iscloseDefault (a b : ℚ) : Bool :=
  isclose a b tol9 0

/-- The parsed step-2 request body: `secret_key` plus the six statistic
fields, each `none` when absent or JSON `null` (src/app.py lines 107-115). -/
structure SubmitRequest where
  secret_key : Option String
  count : Option ℚ
  minimum : Option ℚ
  maximum : Option ℚ
  mean : Option ℚ
  median : Option ℚ
  mode : Option ℚ
deriving DecidableEq, Repr

/-- Python truthiness test `not x` on an optional string: true for `None`
and for the empty string. -/
def keyFalsy : Option String → Bool
  | none => true
  | some s => s == ""

/-- `not all(user_stats[k] is not None for k in user_stats)`
(src/app.py line 120): some statistic field is absent/null. -/
def missingFields (r : SubmitRequest) : Bool :=
  r.count.isNone || r.minimum.isNone || r.maximum.isNone ||
    r.mean.isNone || r.median.isNone || r.mode.isNone

/-- One stored challenge record (src/app.py lines 85-91). -/
structure Challenge where
  email : String
  numbers_y : List ℚ
  correct_stats : StatisticsSnapshot
  step2_attempts : Nat
  last_correct_submission_data : Option SubmitRequest
deriving DecidableEq

/-- `MAX_STEP2_ATTEMPTS = 10` (src/app.py line 28). -/
def MAX_STEP2_ATTEMPTS : Nat := 10

/-- The in-memory `challenges_data` dict, keyed by secret key. -/
abbrev Store := String → Option Challenge

/-- Writing a (new or mutated) challenge record back into the dict. -/
def updateStore (s : Store) (k : String) (c : Challenge) : Store :=
  fun k2 => if k2 = k then some c else s k2

/-- The step-1 response body: either the 400 error object or the 200 object
carrying exactly `secret_key` and `numbers` (src/app.py lines 75 and 95-98). -/
inductive Step1Result where
  | badRequest (error : String) (status : Nat)
  | ok (secret_key : String) (numbers : List ℚ) (status : Nat)
deriving DecidableEq

/-- `step1_get_challenge` (src/app.py lines 71-98).  The random draws
(`secret_key`, the dataset `numbers_y`) are parameters of the embedding. -/
def step1_get_challenge (email : Option String) (secret_key : String)
    (numbers_y : List ℚ) (s : Store) : Step1Result × Store :=
  if keyFalsy email then (.badRequest "Email parameter is required" 400, s)
  else
    let correct_stats := calculate_statistics numbers_y
    let c : Challenge :=
      { email := email.getD "", numbers_y := numbers_y,
        correct_stats := correct_stats, step2_attempts := 0,
        last_correct_submission_data := none }
    (.ok secret_key numbers_y 200, updateStore s secret_key c)

/-- A step-2 JSON response: message, optional note, HTTP status. -/
structure HttpResponse where
  message : String
  note : Option String
  status : Nat
deriving DecidableEq, Repr

def missingFieldsResponse : HttpResponse :=
  ⟨"Please try again!!! (Missing fields)", none, 400⟩

def invalidKeyResponse : HttpResponse :=
  ⟨"Please try again!!! (Invalid secret_key)", none, 400⟩

def limitWithSuccessResponse : HttpResponse :=
  ⟨"Your response has been submitted successfully",
    some "Rate limit reached, but previous submission was correct.", 200⟩

def maxAttemptsResponse : HttpResponse :=
  ⟨"Please try again!!! (Max attempts reached)", none, 429⟩

def successResponse : HttpResponse :=
  ⟨"Your response has been submitted successfully", none, 200⟩

def tryAgainResponse : HttpResponse :=
  ⟨"Please try again!!!", none, 400⟩

/-- The six field names, used to tag collected mismatch descriptions. -/
inductive FieldCheck
  | count | minimum | maximum | mean | median | mode
deriving DecidableEq, Repr

/-- The submitted values once the presence guard has passed. -/
structure UserStats where
  count : ℚ
  minimum : ℚ
  maximum : ℚ
  mean : ℚ
  median : ℚ
  mode : ℚ
deriving DecidableEq

def toUserStats (r : SubmitRequest) : UserStats :=
  ⟨r.count.getD 0, r.minimum.getD 0, r.maximum.getD 0,
    r.mean.getD 0, r.median.getD 0, r.mode.getD 0⟩

/-- The ground-truth values the comparison block reads without any guard:
`correct_stats["minimum"] ... ["modes"]` (src/app.py lines 153-170). -/
structure GroundValues where
  count : Nat
  minimum : ℚ
  maximum : ℚ
  mean : ℚ
  median : ℚ
  modes : List ℚ
deriving DecidableEq

/-- Reading the ground-truth fields out of the stored snapshot.  `none`
models the Python runtime error (`float(None)` TypeError / missing `modes`
key) that the unguarded comparison block raises when a field is absent. -/
def extractGround (c : StatisticsSnapshot) : Option GroundValues :=
  match c.minimum, c.maximum, c.mean, c.median, c.modes with
  | some mn, some mx, some me, some md, some ms =>
    some ⟨c.count, mn, mx, me, md, ms⟩
  | _, _, _, _, _ => none

/-- The validation block (src/app.py lines 144-172): six sequential checks,
each independently clearing `valid_submission` and appending one mismatch
entry; no short-circuiting. -/
def validate (u : UserStats) (g : GroundValues) : Bool × List FieldCheck :=
  let r0 : Bool × List FieldCheck := (true, [])
  let r1 :=
    if u.count = (g.count : ℚ) then r0
    else (false, r0.snd ++ [FieldCheck.count])
  let r2 :=
    if iscloseDefault u.minimum g.minimum then r1
    else (false, r1.snd ++ [FieldCheck.minimum])
  let r3 :=
    if iscloseDefault u.maximum g.maximum then r2
    else (false, r2.snd ++ [FieldCheck.maximum])
  let r4 :=
    if isclose u.mean g.mean tol9 tol9 then r3
    else (false, r3.snd ++ [FieldCheck.mean])
  let r5 :=
    if isclose u.median g.median tol9 tol9 then r4
    else (false, r4.snd ++ [FieldCheck.median])
  let r6 :=
    if u.mode ∈ g.modes then r5
    else (false, r5.snd ++ [FieldCheck.mode])
  r6

/-- `step2_submit_statistics` (src/app.py lines 100-185) on an
already-parsed body.  Returns `none` when the unguarded comparison block
would raise on an absent ground-truth field (HTTP 500); otherwise the
response and the resulting store. -/
def step2_submit_statistics (data : SubmitRequest) (s : Store) :
    Option (HttpResponse × Store) :=
  if keyFalsy data.secret_key || missingFields data then
    some (missingFieldsResponse, s)
  else
    let secret_key := data.secret_key.getD ""
    match s secret_key with
    | none => some (invalidKeyResponse, s)
    | some challenge_info =>
      if challenge_info.step2_attempts ≥ MAX_STEP2_ATTEMPTS then
        if challenge_info.last_correct_submission_data.isSome then
          some (limitWithSuccessResponse, s)
        else
          some (maxAttemptsResponse, s)
      else
        let ci := { challenge_info with
                    step2_attempts := challenge_info.step2_attempts + 1 }
        match extractGround ci.correct_stats with
        | none => none
        | some g =>
          if (validate (toUserStats data) g).fst then
            let ci2 := { ci with last_correct_submission_data := some data }
            some (successResponse, updateStore s secret_key ci2)
          else
            some (tryAgainResponse, updateStore s secret_key ci)

/-- Running a sequence of step-2 submissions, threading the store;
`none` as soon as one of them raises. -/
def runSubmissions : List SubmitRequest → Store → Option Store
  | [], s => some s
  | r :: rs, s =>
    match step2_submit_statistics r s with
    | none => none
    | some (_, s2) => runSubmissions rs s2

/-- A request that passes the presence guard and addresses key `k`. -/
def wellFormedFor (r : SubmitRequest) (k : String) : Bool :=
  (r.secret_key == some k) && !(k == "") && !(missingFields r)

/-! ### Helper lemmas about folded minima / maxima -/

lemma foldl_min_le_init {α : Type} [LinearOrder α] :
    ∀ (xs : List α) (a : α), xs.foldl min a ≤ a
  | [], a => le_refl a
  | b :: bs, a => le_trans (foldl_min_le_init bs (min a b)) (min_le_left a b)

lemma foldl_min_le_of_mem {α : Type} [LinearOrder α] :
    ∀ (xs : List α) (a y : α), y ∈ xs → xs.foldl min a ≤ y
  | b :: bs, a, y, h => by
    rcases List.mem_cons.mp h with rfl | h2
    · exact le_trans (foldl_min_le_init bs (min a y)) (min_le_right a y)
    · exact foldl_min_le_of_mem bs (min a b) y h2

lemma le_foldl_max_init {α : Type} [LinearOrder α] :
    ∀ (xs : List α) (a : α), a ≤ xs.foldl max a
  | [], a => le_refl a
  | b :: bs, a => le_trans (le_max_left a b) (le_foldl_max_init bs (max a b))

lemma le_foldl_max_of_mem {α : Type} [LinearOrder α] :
    ∀ (xs : List α) (a y : α), y ∈ xs → y ≤ xs.foldl max a
  | b :: bs, a, y, h => by
    rcases List.mem_cons.mp h with rfl | h2
    · exact le_trans (le_max_right a y) (le_foldl_max_init bs (max a y))
    · exact le_foldl_max_of_mem bs (max a b) y h2

lemma foldl_max_eq_init_or_mem {α : Type} [LinearOrder α] :
    ∀ (xs : List α) (a : α), xs.foldl max a = a ∨ xs.foldl max a ∈ xs
  | [], _ => Or.inl rfl
  | b :: bs, a => by
    rcases foldl_max_eq_init_or_mem bs (max a b) with h | h
    · rw [List.foldl_cons, h]
      rcases max_choice a b with h2 | h2 <;> rw [h2]
      · exact Or.inl rfl
      · exact Or.inr (List.mem_cons_self b bs)
    · exact Or.inr (List.mem_cons_of_mem b h)

/-! ### Helper lemmas about `max_freq`, `modesOf` and `median` -/

lemma count_le_max_freq (l : List ℚ) (x : ℚ) (hx : x ∈ l) :
    l.count x ≤ max_freq l := by
  have hmem : l.count x ∈ l.dedup.map fun v => l.count v :=
    List.mem_map_of_mem _ (List.mem_dedup.mpr hx)
  exact le_foldl_max_of_mem _ 0 _ hmem

lemma max_freq_attained (l : List ℚ) (hne : l ≠ []) :
    ∃ y ∈ l, l.count y = max_freq l := by
  rcases foldl_max_eq_init_or_mem (l.dedup.map fun v => l.count v) 0 with h | h
  · exfalso
    rcases List.exists_mem_of_ne_nil l hne with ⟨x, hx⟩
    have h1 : 0 < l.count x := List.count_pos_iff.mpr hx
    have h2 : l.count x ≤ max_freq l := count_le_max_freq l x hx
    rw [max_freq] at h2
    omega
  · rcases List.mem_map.mp h with ⟨y, hy, hcount⟩
    exact ⟨y, List.mem_dedup.mp hy, hcount⟩

lemma mem_modesOf_iff (l : List ℚ) (x : ℚ) :
    x ∈ modesOf l ↔ x ∈ l ∧ l.count x = max_freq l := by
  rw [modesOf, List.mem_insertionSort, List.mem_filter, List.mem_dedup,
    beq_iff_eq]

lemma modesOf_ne_nil (l : List ℚ) (hne : l ≠ []) : modesOf l ≠ [] := by
  rcases max_freq_attained l hne with ⟨y, hy, hcount⟩
  exact List.ne_nil_of_mem ((mem_modesOf_iff l y).mpr ⟨hy, hcount⟩)

lemma modesOf_sorted (l : List ℚ) : List.Sorted (· ≤ ·) (modesOf l) :=
  List.sorted_insertionSort _ _

lemma modesOf_nodup (l : List ℚ) : (modesOf l).Nodup :=
  ((List.perm_insertionSort _ _).nodup_iff).mpr
    (List.Nodup.filter _ (List.nodup_dedup l))

lemma sorted_getD_mem (l : List ℚ) (i : Nat) (h : i < l.length) :
    (l.insertionSort (· ≤ ·)).getD i 0 ∈ l := by
  have hlen : (l.insertionSort (· ≤ ·)).length = l.length :=
    List.length_insertionSort _ l
  rw [List.getD_eq_getElem _ _ (by rw [hlen]; exact h)]
  exact (List.mem_insertionSort _).mp (List.getElem_mem _)

lemma median_mem_bounds (l : List ℚ) (hne : l ≠ []) (mn mx : ℚ)
    (hmn : ∀ x ∈ l, mn ≤ x) (hmx : ∀ x ∈ l, x ≤ mx) :
    mn ≤ median l ∧ median l ≤ mx := by
  have hlpos : 0 < l.length := List.length_pos.mpr hne
  rw [median]
  by_cases hodd : l.length % 2 = 1
  · rw [if_pos hodd]
    have hmem := sorted_getD_mem l (l.length / 2) (Nat.div_lt_self hlpos one_lt_two)
    exact ⟨hmn _ hmem, hmx _ hmem⟩
  · rw [if_neg hodd]
    have hge2 : 2 ≤ l.length := by omega
    have hmem1 := sorted_getD_mem l (l.length / 2 - 1) (by omega)
    have hmem2 := sorted_getD_mem l (l.length / 2) (Nat.div_lt_self hlpos one_lt_two)
    constructor
    · have h1 := hmn _ hmem1
      have h2 := hmn _ hmem2
      linarith
    · have h1 := hmx _ hmem1
      have h2 := hmx _ hmem2
      linarith

/-! ### Helper lemmas about `step2_submit_statistics` -/

lemma updateStore_same (s : Store) (k : String) (c : Challenge) :
    updateStore s k c k = some c := by
  simp [updateStore]

lemma wellFormedFor_spec (r : SubmitRequest) (k : String)
    (h : wellFormedFor r k = true) :
    r.secret_key = some k ∧ k ≠ "" ∧ missingFields r = false := by
  simp only [wellFormedFor, Bool.and_eq_true, beq_iff_eq, Bool.not_eq_true',
    beq_eq_false_iff_ne, ne_eq] at h
  exact ⟨h.1.1, h.1.2, h.2⟩

lemma step2_guard_passes (r : SubmitRequest) (k : String)
    (h : wellFormedFor r k = true) :
    (keyFalsy r.secret_key || missingFields r) = false := by
  obtain ⟨h1, h2, h3⟩ := wellFormedFor_spec r k h
  rw [h1, h3]
  simp [keyFalsy, h2]

/-- One attempt below the limit: the counter is incremented and, on a correct
submission, the payload is memoized. -/
lemma step2_normal_success (s : Store) (k : String) (c : Challenge)
    (g : GroundValues) (r : SubmitRequest)
    (hs : s k = some c) (hw : wellFormedFor r k = true)
    (hlt : c.step2_attempts < MAX_STEP2_ATTEMPTS)
    (hg : extractGround c.correct_stats = some g)
    (hv : (validate (toUserStats r) g).fst = true) :
    step2_submit_statistics r s =
      some (successResponse,
        updateStore s k
          { c with step2_attempts := c.step2_attempts + 1,
                   last_correct_submission_data := some r }) := by
  obtain ⟨h1, _, _⟩ := wellFormedFor_spec r k hw
  have hnot : ¬ (c.step2_attempts ≥ MAX_STEP2_ATTEMPTS) := Nat.not_le.mpr hlt
  rw [step2_submit_statistics, step2_guard_passes r k hw]
  simp only [Bool.false_eq_true, if_false, h1, Option.getD_some, hs]
  rw [if_neg hnot]
  simp only [hg, hv, if_true]

/-- One attempt below the limit: the counter is incremented and, on an
incorrect submission, the memoized success (if any) is left untouched. -/
lemma step2_normal_failure (s : Store) (k : String) (c : Challenge)
    (g : GroundValues) (r : SubmitRequest)
    (hs : s k = some c) (hw : wellFormedFor r k = true)
    (hlt : c.step2_attempts < MAX_STEP2_ATTEMPTS)
    (hg : extractGround c.correct_stats = some g)
    (hv : (validate (toUserStats r) g).fst = false) :
    step2_submit_statistics r s =
      some (tryAgainResponse,
        updateStore s k { c with step2_attempts := c.step2_attempts + 1 }) := by
  obtain ⟨h1, _, _⟩ := wellFormedFor_spec r k hw
  have hnot : ¬ (c.step2_attempts ≥ MAX_STEP2_ATTEMPTS) := Nat.not_le.mpr hlt
  rw [step2_submit_statistics, step2_guard_passes r k hw]
  simp only [Bool.false_eq_true, if_false, h1, Option.getD_some, hs]
  rw [if_neg hnot]
  simp only [hg, hv, Bool.false_eq_true, if_false]

/-- Threading any sequence of guard-passing submissions below the limit
through the store adds exactly its length to the attempt counter and leaves
the ground truth unchanged. -/
lemma runSubmissions_attempts (reqs : List SubmitRequest) (s : Store)
    (k : String) (c : Challenge) (g : GroundValues)
    (hs : s k = some c) (hg : extractGround c.correct_stats = some g)
    (hw : ∀ r ∈ reqs, wellFormedFor r k = true)
    (hle : c.step2_attempts + reqs.length ≤ MAX_STEP2_ATTEMPTS) :
    ∃ (s2 : Store) (c2 : Challenge), runSubmissions reqs s = some s2 ∧
      s2 k = some c2 ∧ c2.step2_attempts = c.step2_attempts + reqs.length ∧
      c2.correct_stats = c.correct_stats := by
  induction reqs generalizing s c with
  | nil => exact ⟨s, c, rfl, hs, by simp, rfl⟩
  | cons r rs ih =>
    have hwr := hw r (List.mem_cons_self r rs)
    have hlen : (r :: rs).length = rs.length + 1 := List.length_cons r rs
    have hlt : c.step2_attempts < MAX_STEP2_ATTEMPTS := by omega
    have hwrest : ∀ q ∈ rs, wellFormedFor q k = true :=
      fun q hq => hw q (List.mem_cons_of_mem r hq)
    by_cases hv : (validate (toUserStats r) g).fst = true
    · have hstep := step2_normal_success s k c g r hs hwr hlt hg hv
      rw [runSubmissions, hstep]
      obtain ⟨s2, c2, hrun, hk2, hatt, hcs⟩ :=
        ih (updateStore s k
              { c with step2_attempts := c.step2_attempts + 1,
                       last_correct_submission_data := some r })
          { c with step2_attempts := c.step2_attempts + 1,
                   last_correct_submission_data := some r }
          (updateStore_same _ _ _) hg hwrest (by simpa using by omega)
      exact ⟨s2, c2, hrun, hk2, by simp at hatt ⊢; omega, hcs⟩
    · have hstep := step2_normal_failure s k c g r hs hwr hlt hg
        (Bool.not_eq_true _ ▸ hv)
      rw [runSubmissions, hstep]
      obtain ⟨s2, c2, hrun, hk2, hatt, hcs⟩ :=
        ih (updateStore s k { c with step2_attempts := c.step2_attempts + 1 })
          { c with step2_attempts := c.step2_attempts + 1 }
          (updateStore_same _ _ _) hg hwrest (by simpa using by omega)
      exact ⟨s2, c2, hrun, hk2, by simp at hatt ⊢; omega, hcs⟩

/-! ### Claim theorems -/

set_option maxHeartbeats 800000 in
/-- C1: a submission that reaches the comparison step is judged correct iff
all six field checks pass — count by exact equality, minimum and maximum by
`math.isclose` with the implementation-default tolerances, mean and median by
`math.isclose` with explicit relative and absolute tolerance `1e-9`, and the
submitted mode by membership in `ground_truth.modes`; moreover every failing
check contributes its own mismatch entry regardless of the other checks (no
short-circuiting), so any single mismatch makes the attempt incorrect. -/
theorem C1_comparison_semantics (u : UserStats) (g : GroundValues) :
    ((validate u g).fst = true ↔
      (u.count = (g.count : ℚ) ∧
       iscloseDefault u.minimum g.minimum = true ∧
       iscloseDefault u.maximum g.maximum = true ∧
       isclose u.mean g.mean tol9 tol9 = true ∧
       isclose u.median g.median tol9 tol9 = true ∧
       u.mode ∈ g.modes)) ∧
    (validate u g).snd =
      ((if u.count = (g.count : ℚ) then [] else [FieldCheck.count]) ++
       (if iscloseDefault u.minimum g.minimum then [] else [FieldCheck.minimum]) ++
       (if iscloseDefault u.maximum g.maximum then [] else [FieldCheck.maximum]) ++
       (if isclose u.mean g.mean tol9 tol9 then []
        else [FieldCheck.mean]) ++
       (if isclose u.median g.median tol9 tol9 then []
        else [FieldCheck.median]) ++
       (if u.mode ∈ g.modes then [] else [FieldCheck.mode])) := by
  by_cases h1 : u.count = (g.count : ℚ) <;>
  by_cases h2 : iscloseDefault u.minimum g.minimum = true <;>
  by_cases h3 : iscloseDefault u.maximum g.maximum = true <;>
  by_cases h4 : isclose u.mean g.mean tol9 tol9 = true <;>
  by_cases h5 : isclose u.median g.median tol9 tol9 = true <;>
  by_cases h6 : u.mode ∈ g.modes <;>
  simp [validate, h1, h2, h3, h4, h5, h6]

/-- C5: a submission with `secret_key` absent, or with any of the six
statistic fields absent or null, is rejected with the 400 missing-fields
response before the key lookup, the attempt-limit check and the increment:
the store — hence every `attempt_count` — is returned unchanged. -/
theorem C5_missing_fields_rejected (r : SubmitRequest) (s : Store)
    (h : r.secret_key = none ∨ missingFields r = true) :
    step2_submit_statistics r s = some (missingFieldsResponse, s) := by
  rcases h with h | h
  · rw [step2_submit_statistics, h]
    simp [keyFalsy]
  · rw [step2_submit_statistics, h]
    simp

/-- C9: on the empty input sequence `calculate_statistics` returns a snapshot
with `count = 0` and every other field absent (`None`) rather than zero; in
particular the modes collection of that snapshot holds no value at all. -/
theorem C9_empty_input :
    calculate_statistics [] =
      { count := 0, minimum := none, maximum := none, mean := none,
        median := none, modes := none } ∧
    ∀ x : ℚ, x ∉ ((calculate_statistics []).modes.getD []) :=
  ⟨rfl, by simp [calculate_statistics]⟩

/-- C7: for every non-empty sequence the snapshot satisfies
`minimum ≤ x ≤ maximum` for every element `x`, and
`minimum ≤ median ≤ maximum`. -/
theorem C7_min_median_max_bounds (l : List ℚ) (hne : l ≠ []) :
    ∃ mn mx md,
      (calculate_statistics l).minimum = some mn ∧
      (calculate_statistics l).maximum = some mx ∧
      (calculate_statistics l).median = some md ∧
      (∀ x ∈ l, mn ≤ x ∧ x ≤ mx) ∧ mn ≤ md ∧ md ≤ mx := by
  match l with
  | [] => exact absurd rfl hne
  | x :: xs =>
    have hmn : ∀ y ∈ x :: xs, xs.foldl min x ≤ y := by
      intro y hy
      rcases List.mem_cons.mp hy with rfl | hy2
      · exact foldl_min_le_init xs y
      · exact foldl_min_le_of_mem xs x y hy2
    have hmx : ∀ y ∈ x :: xs, y ≤ xs.foldl max x := by
      intro y hy
      rcases List.mem_cons.mp hy with rfl | hy2
      · exact le_foldl_max_init xs y
      · exact le_foldl_max_of_mem xs x y hy2
    have hb := median_mem_bounds (x :: xs) (List.cons_ne_nil x xs)
      (xs.foldl min x) (xs.foldl max x) hmn hmx
    exact ⟨xs.foldl min x, xs.foldl max x, median (x :: xs), rfl, rfl, rfl,
      fun y hy => ⟨hmn y hy, hmx y hy⟩, hb.1, hb.2⟩

/-- C8: for every non-empty input the `modes` field is a non-empty
ascending-sorted list of distinct values containing exactly those values
whose frequency in the input equals the maximum observed frequency: every
frequency is at most `max_freq`, `max_freq` is attained, and membership in
`modes` is equivalent to attaining it (all ties retained). -/
theorem C8_modes_characterisation (l : List ℚ) (hne : l ≠ []) :
    ∃ ms, (calculate_statistics l).modes = some ms ∧
      ms ≠ [] ∧
      List.Sorted (· ≤ ·) ms ∧ ms.Nodup ∧
      (∀ x, x ∈ ms ↔ x ∈ l ∧ l.count x = max_freq l) ∧
      (∀ x ∈ l, l.count x ≤ max_freq l) ∧
      (∃ y ∈ l, l.count y = max_freq l) := by
  match l with
  | [] => exact absurd rfl hne
  | x :: xs =>
    exact ⟨modesOf (x :: xs), rfl,
      modesOf_ne_nil (x :: xs) (List.cons_ne_nil x xs),
      modesOf_sorted (x :: xs), modesOf_nodup (x :: xs),
      mem_modesOf_iff (x :: xs),
      count_le_max_freq (x :: xs),
      max_freq_attained (x :: xs) (List.cons_ne_nil x xs)⟩

/-- C2: within the attempt budget, after a correct payload `A`, an incorrect
payload `B`, then a correct payload `C`, the stored
`last_correct_submission_data` equals `C` (each success overwrites the
previous one); `B`'s own response reports failure while `A` remains stored
after it, and `C`'s own response reports success. -/
theorem C2_last_correct_wins (s : Store) (k : String) (c : Challenge)
    (g : GroundValues) (A B C : SubmitRequest)
    (hs : s k = some c) (hg : extractGround c.correct_stats = some g)
    (hlim : c.step2_attempts + 3 ≤ MAX_STEP2_ATTEMPTS)
    (hA : wellFormedFor A k = true) (hB : wellFormedFor B k = true)
    (hC : wellFormedFor C k = true)
    (hAv : (validate (toUserStats A) g).fst = true)
    (hBv : (validate (toUserStats B) g).fst = false)
    (hCv : (validate (toUserStats C) g).fst = true) :
    ∃ s1 s2 s3,
      step2_submit_statistics A s = some (successResponse, s1) ∧
      step2_submit_statistics B s1 = some (tryAgainResponse, s2) ∧
      step2_submit_statistics C s2 = some (successResponse, s3) ∧
      ((s2 k).map fun ci => ci.last_correct_submission_data) = some (some A) ∧
      ((s3 k).map fun ci => ci.last_correct_submission_data) = some (some C) := by
  have hltA : c.step2_attempts < MAX_STEP2_ATTEMPTS := by omega
  have h1 := step2_normal_success s k c g A hs hA hltA hg hAv
  set c1 : Challenge :=
    { c with step2_attempts := c.step2_attempts + 1,
             last_correct_submission_data := some A } with hc1
  set s1 := updateStore s k c1 with hs1
  have hs1k : s1 k = some c1 := updateStore_same s k c1
  have hltB : c1.step2_attempts < MAX_STEP2_ATTEMPTS := by
    simp [hc1]; omega
  have h2 := step2_normal_failure s1 k c1 g B hs1k hB hltB hg hBv
  set c2 : Challenge :=
    { c1 with step2_attempts := c1.step2_attempts + 1 } with hc2
  set s2 := updateStore s1 k c2 with hs2
  have hs2k : s2 k = some c2 := updateStore_same s1 k c2
  have hltC : c2.step2_attempts < MAX_STEP2_ATTEMPTS := by
    simp [hc2, hc1]; omega
  have h3 := step2_normal_success s2 k c2 g C hs2k hC hltC hg hCv
  set c3 : Challenge :=
    { c2 with step2_attempts := c2.step2_attempts + 1,
              last_correct_submission_data := some C } with hc3
  set s3 := updateStore s2 k c3 with hs3
  have hs3k : s3 k = some c3 := updateStore_same s2 k c3
  refine ⟨s1, s2, s3, h1, h2, h3, ?_, ?_⟩
  · rw [hs2k]
    simp [hc2, hc1]
  · rw [hs3k]
    simp [hc3]

/-- C3: once `step2_attempts` has reached `MAX_STEP2_ATTEMPTS`, a well-formed
submission to a known challenge gets the 200 success-with-note response when a
prior success is memoized and the 429 attempts-exhausted response otherwise;
in both cases the store — hence `attempt_count` — is returned unchanged. -/
theorem C3_attempt_limit (s : Store) (k : String) (c : Challenge)
    (r : SubmitRequest) (hs : s k = some c) (hw : wellFormedFor r k = true)
    (hge : c.step2_attempts ≥ MAX_STEP2_ATTEMPTS) :
    step2_submit_statistics r s =
      some ((if c.last_correct_submission_data.isSome then
               limitWithSuccessResponse
             else maxAttemptsResponse), s) ∧
    limitWithSuccessResponse.status = 200 ∧
    maxAttemptsResponse.status = 429 := by
  obtain ⟨h1, _, _⟩ := wellFormedFor_spec r k hw
  refine ⟨?_, rfl, rfl⟩
  rw [step2_submit_statistics, step2_guard_passes r k hw]
  simp only [Bool.false_eq_true, if_false, h1, Option.getD_some, hs]
  rw [if_pos hge]
  by_cases hl : c.last_correct_submission_data.isSome <;> simp [hl]

/-- C4: starting from a freshly issued challenge (`step2_attempts = 0`),
after exactly `k < MAX_STEP2_ATTEMPTS` submissions that pass the
field-presence, key-lookup and attempt-limit checks, the stored
`step2_attempts` equals `k`, regardless of the correctness of each attempt,
and the stored ground truth is unchanged. -/
theorem C4_attempt_counting (s : Store) (k : String) (c : Challenge)
    (g : GroundValues) (reqs : List SubmitRequest)
    (hs : s k = some c) (h0 : c.step2_attempts = 0)
    (hg : extractGround c.correct_stats = some g)
    (hw : ∀ r ∈ reqs, wellFormedFor r k = true)
    (hk : reqs.length < MAX_STEP2_ATTEMPTS) :
    ∃ (s2 : Store) (c2 : Challenge), runSubmissions reqs s = some s2 ∧
      s2 k = some c2 ∧ c2.step2_attempts = reqs.length ∧
      c2.correct_stats = c.correct_stats := by
  obtain ⟨s2, c2, hrun, hk2, hatt, hcs⟩ :=
    runSubmissions_attempts reqs s k c g hs hg hw (by omega)
  exact ⟨s2, c2, hrun, hk2, by omega, hcs⟩

/-- C6: ground truth is never exposed: the issuance response carries exactly
the secret key and the dataset (no computed statistics), and any two failed
comparisons — even against challenges with different ground truths — produce
the identical fixed failure body. -/
theorem C6_no_ground_truth_leak :
    (∀ (email : Option String) (sk : String) (ds : List ℚ) (s : Store),
      keyFalsy email = false →
      (step1_get_challenge email sk ds s).fst = Step1Result.ok sk ds 200) ∧
    (∀ (s1 s2 : Store) (k1 k2 : String) (c1 c2 : Challenge)
       (g1 g2 : GroundValues) (r1 r2 : SubmitRequest),
      s1 k1 = some c1 → s2 k2 = some c2 →
      c1.correct_stats ≠ c2.correct_stats →
      wellFormedFor r1 k1 = true → wellFormedFor r2 k2 = true →
      c1.step2_attempts < MAX_STEP2_ATTEMPTS →
      c2.step2_attempts < MAX_STEP2_ATTEMPTS →
      extractGround c1.correct_stats = some g1 →
      extractGround c2.correct_stats = some g2 →
      (validate (toUserStats r1) g1).fst = false →
      (validate (toUserStats r2) g2).fst = false →
      (step2_submit_statistics r1 s1).map Prod.fst = some tryAgainResponse ∧
      (step2_submit_statistics r2 s2).map Prod.fst = some tryAgainResponse ∧
      (step2_submit_statistics r1 s1).map Prod.fst =
        (step2_submit_statistics r2 s2).map Prod.fst) := by
  constructor
  · intro email sk ds s hem
    rw [step1_get_challenge, hem]
    simp
  · intro s1 s2 k1 k2 c1 c2 g1 g2 r1 r2 hs1 hs2 _ hw1 hw2 hlt1 hlt2 hg1 hg2
      hv1 hv2
    rw [step2_normal_failure s1 k1 c1 g1 r1 hs1 hw1 hlt1 hg1 hv1,
      step2_normal_failure s2 k2 c2 g2 r2 hs2 hw2 hlt2 hg2 hv2]
    exact ⟨rfl, rfl, rfl⟩

/-- C10: every challenge placed in the store by issuance is built from a
non-empty dataset (length between 5 and 15, elements between 1 and 100), so
its stored ground truth has present (non-`None`) minimum, maximum, mean and
median values and a non-empty `modes` list; consequently the unguarded
comparison block never operates on an absent value — `step2` never raises on
such a challenge. -/
theorem C10_stored_ground_truth_complete (email : Option String)
    (sk : String) (ds : List ℚ) (s : Store)
    (hem : keyFalsy email = false)
    (hlen5 : 5 ≤ ds.length) (hlen15 : ds.length ≤ 15)
    (hvals : ∀ x ∈ ds, 1 ≤ x ∧ x ≤ 100) :
    ∃ c : Challenge,
      (step1_get_challenge email sk ds s).snd sk = some c ∧
      c.correct_stats = calculate_statistics ds ∧
      (∃ g : GroundValues, extractGround c.correct_stats = some g ∧
        g.modes ≠ []) ∧
      (∀ (s2 : Store) (r : SubmitRequest), s2 sk = some c →
        r.secret_key = some sk → step2_submit_statistics r s2 ≠ none) := by
  have hne : ds ≠ [] := by
    intro h
    rw [h] at hlen5
    simp at hlen5
  obtain ⟨x, xs, rfl⟩ := List.exists_cons_of_ne_nil hne
  have hstore : (step1_get_challenge email sk (x :: xs) s).snd sk =
      some { email := email.getD "", numbers_y := x :: xs,
             correct_stats := calculate_statistics (x :: xs),
             step2_attempts := 0, last_correct_submission_data := none } := by
    rw [step1_get_challenge, hem]
    simp [updateStore_same]
  refine ⟨_, hstore, rfl, ⟨⟨(x :: xs).length, xs.foldl min x, xs.foldl max x,
    (x :: xs).sum / (x :: xs).length, median (x :: xs), modesOf (x :: xs)⟩,
    rfl, modesOf_ne_nil (x :: xs) (List.cons_ne_nil x xs)⟩, ?_⟩
  intro s2 r hs2 hkey
  rw [step2_submit_statistics]
  by_cases hguard : (keyFalsy r.secret_key || missingFields r) = true
  · rw [if_pos hguard]
    exact Option.some_ne_none _
  · rw [if_neg hguard]
    simp only [hkey, Option.getD_some, hs2]
    by_cases hge : (0 : Nat) ≥ MAX_STEP2_ATTEMPTS
    · rw [if_pos hge]
      by_cases hl : (Option.none : Option SubmitRequest).isSome <;>
        simp [hl]
    · rw [if_neg hge]
      simp only [calculate_statistics, extractGround]
      split <;> simp

/-! ### Concrete sample data (the spec's worked example) -/

/-- Ground truth of the dataset `[10, 20, 15, 20, 25]`. -/
def sampleStats : StatisticsSnapshot :=
  ⟨5, some 10, some 25, some 18, some 20, some [20]⟩

def sampleGround : GroundValues := ⟨5, 10, 25, 18, 20, [20]⟩

/-- A second ground truth (dataset `[1, 1, 1, 2]`), different from
`sampleStats`. -/
def sampleStats2 : StatisticsSnapshot :=
  ⟨4, some 1, some 2, some (5 / 4), some 1, some [1]⟩

def sampleGround2 : GroundValues := ⟨4, 1, 2, 5 / 4, 1, [1]⟩

def sampleChallenge : Challenge :=
  { email := "user@example.com", numbers_y := [10, 20, 15, 20, 25],
    correct_stats := sampleStats, step2_attempts := 0,
    last_correct_submission_data := none }

def sampleChallenge2 : Challenge :=
  { email := "other@example.com", numbers_y := [1, 1, 1, 2],
    correct_stats := sampleStats2, step2_attempts := 0,
    last_correct_submission_data := none }

/-- `sampleChallenge` with its attempt budget exhausted and no memoized
success. -/
def sampleChallenge10 : Challenge :=
  { sampleChallenge with step2_attempts := 10 }

def emptyStore : Store := fun _ => none

def sampleStore : Store :=
  fun k => if k = "key1" then some sampleChallenge else none

def sampleStore2 : Store :=
  fun k => if k = "key2" then some sampleChallenge2 else none

def sampleStore10 : Store :=
  fun k => if k = "key1" then some sampleChallenge10 else none

/-- The spec's worked correct submission for `[10, 20, 15, 20, 25]`. -/
def goodRequest : SubmitRequest :=
  ⟨some "key1", some 5, some 10, some 25, some 18, some 20, some 20⟩

/-- The same submission with `mode = 15`, which is not among the modes. -/
def badRequest : SubmitRequest :=
  ⟨some "key1", some 5, some 10, some 25, some 18, some 20, some 15⟩

/-- A failing submission against `sampleChallenge2` (mode 2 not in `[1]`). -/
def badRequest2 : SubmitRequest :=
  ⟨some "key2", some 4, some 1, some 2, some (5 / 4), some 1, some 2⟩

/-- The spec's omitted-median example: a submission lacking one field. -/
def requestMissingMedian : SubmitRequest :=
  ⟨some "key1", some 5, some 10, some 25, some 18, none, some 20⟩

/-! ### Witnesses: the claim theorems instantiated at the sample data -/

/-- Witness for C2 at the spec's worked example. -/
theorem C2_last_correct_wins_witness :
    ∃ s1 s2 s3,
      step2_submit_statistics goodRequest sampleStore =
        some (successResponse, s1) ∧
      step2_submit_statistics badRequest s1 = some (tryAgainResponse, s2) ∧
      step2_submit_statistics goodRequest s2 = some (successResponse, s3) ∧
      ((s2 "key1").map fun ci => ci.last_correct_submission_data) =
        some (some goodRequest) ∧
      ((s3 "key1").map fun ci => ci.last_correct_submission_data) =
        some (some goodRequest) :=
  C2_last_correct_wins sampleStore "key1" sampleChallenge sampleGround
    goodRequest badRequest goodRequest rfl rfl (by decide) rfl rfl rfl
    (by with_unfolding_all rfl) (by with_unfolding_all rfl)
    (by with_unfolding_all rfl)

/-- Witness for C3 with an exhausted challenge and no memoized success. -/
theorem C3_attempt_limit_witness :
    step2_submit_statistics goodRequest sampleStore10 =
      some ((if sampleChallenge10.last_correct_submission_data.isSome then
               limitWithSuccessResponse
             else maxAttemptsResponse), sampleStore10) ∧
    limitWithSuccessResponse.status = 200 ∧
    maxAttemptsResponse.status = 429 :=
  C3_attempt_limit sampleStore10 "key1" sampleChallenge10 goodRequest rfl rfl
    (by decide)

/-- Witness for C4: one correct and one incorrect attempt give counter 2. -/
theorem C4_attempt_counting_witness :
    ∃ (s2 : Store) (c2 : Challenge),
      runSubmissions [goodRequest, badRequest] sampleStore = some s2 ∧
      s2 "key1" = some c2 ∧
      c2.step2_attempts = [goodRequest, badRequest].length ∧
      c2.correct_stats = sampleChallenge.correct_stats :=
  C4_attempt_counting sampleStore "key1" sampleChallenge sampleGround
    [goodRequest, badRequest] rfl rfl rfl (by decide) (by decide)

/-- Witness for C5: the omitted-median submission is rejected and the store
is unchanged. -/
theorem C5_missing_fields_rejected_witness :
    step2_submit_statistics requestMissingMedian sampleStore =
      some (missingFieldsResponse, sampleStore) :=
  C5_missing_fields_rejected requestMissingMedian sampleStore (Or.inr rfl)

/-- Witness for C6 at two challenges with different ground truths. -/
theorem C6_no_ground_truth_leak_witness :
    (step1_get_challenge (some "user@example.com") "key1" [10, 20, 15, 20, 25]
        emptyStore).fst = Step1Result.ok "key1" [10, 20, 15, 20, 25] 200 ∧
    ((step2_submit_statistics badRequest sampleStore).map Prod.fst =
       some tryAgainResponse ∧
     (step2_submit_statistics badRequest2 sampleStore2).map Prod.fst =
       some tryAgainResponse ∧
     (step2_submit_statistics badRequest sampleStore).map Prod.fst =
       (step2_submit_statistics badRequest2 sampleStore2).map Prod.fst) :=
  ⟨C6_no_ground_truth_leak.1 (some "user@example.com") "key1"
     [10, 20, 15, 20, 25] emptyStore rfl,
   C6_no_ground_truth_leak.2 sampleStore sampleStore2 "key1" "key2"
     sampleChallenge sampleChallenge2 sampleGround sampleGround2
     badRequest badRequest2 rfl rfl
     (by simp [sampleChallenge, sampleChallenge2, sampleStats, sampleStats2])
     rfl rfl (by decide) (by decide) rfl rfl
     (by with_unfolding_all rfl) (by with_unfolding_all rfl)⟩

/-- Witness for C7 at the spec's worked example. -/
theorem C7_min_median_max_bounds_witness :
    ∃ mn mx md,
      (calculate_statistics [10, 20, 15, 20, 25]).minimum = some mn ∧
      (calculate_statistics [10, 20, 15, 20, 25]).maximum = some mx ∧
      (calculate_statistics [10, 20, 15, 20, 25]).median = some md ∧
      (∀ x ∈ ([10, 20, 15, 20, 25] : List ℚ), mn ≤ x ∧ x ≤ mx) ∧
      mn ≤ md ∧ md ≤ mx :=
  C7_min_median_max_bounds [10, 20, 15, 20, 25] (by simp)

/-- Witness for C8 at the spec's worked example. -/
theorem C8_modes_characterisation_witness :
    ∃ ms, (calculate_statistics [10, 20, 15, 20, 25]).modes = some ms ∧
      ms ≠ [] ∧
      List.Sorted (· ≤ ·) ms ∧ ms.Nodup ∧
      (∀ x, x ∈ ms ↔ x ∈ ([10, 20, 15, 20, 25] : List ℚ) ∧
        ([10, 20, 15, 20, 25] : List ℚ).count x =
          max_freq [10, 20, 15, 20, 25]) ∧
      (∀ x ∈ ([10, 20, 15, 20, 25] : List ℚ),
        ([10, 20, 15, 20, 25] : List ℚ).count x ≤
          max_freq [10, 20, 15, 20, 25]) ∧
      (∃ y ∈ ([10, 20, 15, 20, 25] : List ℚ),
        ([10, 20, 15, 20, 25] : List ℚ).count y =
          max_freq [10, 20, 15, 20, 25]) :=
  C8_modes_characterisation [10, 20, 15, 20, 25] (by simp)

/-- Witness for C10 at an issuance of the spec's worked example dataset. -/
theorem C10_stored_ground_truth_complete_witness :
    ∃ c : Challenge,
      (step1_get_challenge (some "user@example.com") "key1"
          [10, 20, 15, 20, 25] emptyStore).snd "key1" = some c ∧
      c.correct_stats = calculate_statistics [10, 20, 15, 20, 25] ∧
      (∃ g : GroundValues, extractGround c.correct_stats = some g ∧
        g.modes ≠ []) ∧
      (∀ (s2 : Store) (r : SubmitRequest), s2 "key1" = some c →
        r.secret_key = some "key1" → step2_submit_statistics r s2 ≠ none) :=
  C10_stored_ground_truth_complete (some "user@example.com") "key1"
    [10, 20, 15, 20, 25] emptyStore rfl (by decide) (by decide) (by decide)

end APITest
